import Mathlib

/-!
Verification of the sample-variance bias simulator (src/simulation.py).

The core of the program is embedded over exact rationals:
- `mean`, `variance_n`, `variance_n1` mirror the two estimator functions;
  the division by `len(x) - 1`, undefined when the divisor is zero, is
  embedded with `Option` (`none` for the division-by-zero case).
- `population` and `true_variance` mirror the population setup
  (`list(range(1, 21))` and `np.var(population)`).
- `SimState`, `toggle_run`, `reset`, `iterate` mirror the session state,
  the two button handlers, and one iteration of the simulation loop
  (which checks the running flag before doing any work).
- `randint_possible` and `sample_ok` model the outcome range of
  `random.randint` and the success condition of `random.sample`.
-/

namespace SampleVarianceSim

/-- np.mean: the sum of the values divided by how many there are. -/
def mean (x : List ℚ) : ℚ := x.sum / (x.length : ℚ)

/-- The list of squared deviations from the sample mean,
`(np.array(x) - m) ** 2` with `m = np.mean(x)`. -/
def sqDev (x : List ℚ) : List ℚ := x.map (fun v => (v - mean x) ^ 2)

/-- `variance_n` from src/simulation.py: the mean of the squared deviations
from the sample mean (divisor `n`). -/
def variance_n (x : List ℚ) : ℚ := mean (sqDev x)

/-- The quotient computed by `variance_n1` when its divisor `len(x) - 1`
is nonzero: the sum of squared deviations divided by `n - 1`. -/
def variance_n1Val (x : List ℚ) : ℚ := (sqDev x).sum / ((x.length : ℚ) - 1)

/-- `variance_n1` from src/simulation.py: the sum of squared deviations from
the sample mean divided by `len(x) - 1`.  The division is undefined exactly
when the divisor is zero, i.e. when the sample has exactly one element;
that failure case is embedded as `none`. -/
def variance_n1 (x : List ℚ) : Option ℚ :=
  if x.length = 1 then none else some (variance_n1Val x)

/-- The population, `list(range(1, 21))`: the integers 1..20. -/
def population : List ℚ := (List.range 20).map (fun i => ((i + 1 : ℕ) : ℚ))

/-- `true_variance = np.var(population)`: population variance with
full-population divisor N, computed once at module initialization. -/
def true_variance : ℚ := variance_n population

/-- The mutable session state: the running flag and the two histories
(`st.session_state.running`, `.var_n`, `.var_n1`). -/
structure SimState where
  running : Bool
  var_n : List ℚ
  var_n1 : List ℚ
deriving DecidableEq

/-- The initial session state: not running, both histories empty. -/
def initState : SimState := ⟨false, [], []⟩

/-- The Start / Pause button handler: flips the running flag. -/
def toggle_run (s : SimState) : SimState := { s with running := !s.running }

/-- The Clear / Reset button handler: stops the run and clears both
histories, whatever the current state is. -/
def reset (_ : SimState) : SimState := ⟨false, [], []⟩

/-- One iteration of the simulation loop on a given drawn sample: the loop
checks the running flag first (`while st.session_state.running`), and if it
is set appends one estimate to each history.  The loop only draws samples
of size 2..10, on which `variance_n1` is defined and equals
`variance_n1Val`. -/
def iterate (s : SimState) (sample : List ℚ) : SimState :=
  if s.running then
    { s with var_n := s.var_n ++ [variance_n sample],
             var_n1 := s.var_n1 ++ [variance_n1Val sample] }
  else s

/-- The operations that can hit the session state: the two button handlers
and a loop iteration carrying the sample it drew. -/
inductive Op where
  | toggle : Op
  | clear : Op
  | iter : List ℚ → Op

/-- Apply one operation to the state. -/
def applyOp (s : SimState) : Op → SimState
  | .toggle => toggle_run s
  | .clear => reset s
  | .iter sample => iterate s sample

/-- Run a finite sequence of operations from a state. -/
def run (l : List Op) (s : SimState) : SimState := l.foldl applyOp s

/-- The read surface handed to the presentation layer: running flag, both
histories, and the true variance constant. -/
def get_state (s : SimState) : Bool × List ℚ × List ℚ × ℚ :=
  (s.running, s.var_n, s.var_n1, true_variance)

/-- Possible return values of `random.randint(a, b)`: the integers from `a`
to `b` inclusive. -/
def randint_possible (a b k : ℕ) : Prop := a ≤ k ∧ k ≤ b

/-- Success condition of `random.sample(pop, k)`: it returns a `k`-element
sample when `k` does not exceed the population size, and raises
`ValueError` otherwise. -/
def sample_ok (pop : List ℚ) (k : ℕ) : Prop := k ≤ pop.length

instance (a b k : ℕ) : Decidable (randint_possible a b k) := by
  unfold randint_possible; infer_instance

instance (pop : List ℚ) (k : ℕ) : Decidable (sample_ok pop k) := by
  unfold sample_ok; infer_instance

/- ### Helper lemmas -/

lemma length_sqDev (x : List ℚ) : (sqDev x).length = x.length :=
  List.length_map x _

lemma variance_n_eq (x : List ℚ) :
    variance_n x = (sqDev x).sum / (x.length : ℚ) := by
  rw [variance_n, mean, length_sqDev]

lemma sqDev_nonneg (x : List ℚ) : ∀ d ∈ sqDev x, 0 ≤ d := by
  intro d hd
  rcases List.mem_map.mp hd with ⟨v, _, rfl⟩
  positivity

lemma sqDev_sum_nonneg (x : List ℚ) : 0 ≤ (sqDev x).sum :=
  List.sum_nonneg (sqDev_nonneg x)

lemma variance_n_nonneg (x : List ℚ) : 0 ≤ variance_n x := by
  rw [variance_n_eq]
  exact div_nonneg (sqDev_sum_nonneg x) (Nat.cast_nonneg _)

lemma variance_n1Val_nonneg (x : List ℚ) (h : 2 ≤ x.length) :
    0 ≤ variance_n1Val x := by
  have hc : (2 : ℚ) ≤ (x.length : ℚ) := by exact_mod_cast h
  exact div_nonneg (sqDev_sum_nonneg x) (by linarith)

lemma variance_n1_eq_some (x : List ℚ) (h : x.length ≠ 1) :
    variance_n1 x = some (variance_n1Val x) := by
  simp [variance_n1, h]

lemma sum_eq_zero_iff_of_nonneg (l : List ℚ) (h : ∀ a ∈ l, 0 ≤ a) :
    l.sum = 0 ↔ ∀ a ∈ l, a = 0 := by
  induction l with
  | nil => simp
  | cons a t ih =>
    have ha : 0 ≤ a := h a (List.mem_cons_self a t)
    have ht : ∀ b ∈ t, 0 ≤ b := fun b hb => h b (List.mem_cons_of_mem a hb)
    have hts : 0 ≤ t.sum := List.sum_nonneg ht
    constructor
    · intro h0
      rw [List.sum_cons] at h0
      have ha0 : a = 0 := by linarith
      have hts0 : t.sum = 0 := by linarith
      intro b hb
      rcases List.mem_cons.mp hb with rfl | hb
      · exact ha0
      · exact (ih ht).mp hts0 b hb
    · intro h0
      rw [List.sum_cons, h0 a (List.mem_cons_self a t),
        (ih ht).mpr fun b hb => h0 b (List.mem_cons_of_mem a hb), add_zero]

lemma sqDev_sum_zero_iff (x : List ℚ) :
    (sqDev x).sum = 0 ↔ ∀ v ∈ x, v = mean x := by
  rw [sum_eq_zero_iff_of_nonneg _ (sqDev_nonneg x)]
  constructor
  · intro h v hv
    have := h ((v - mean x) ^ 2) (List.mem_map.mpr ⟨v, hv, rfl⟩)
    have hz : v - mean x = 0 := by
      exact pow_eq_zero_iff (n := 2) (by norm_num) |>.mp this
    linarith
  · intro h d hd
    rcases List.mem_map.mp hd with ⟨v, hv, rfl⟩
    rw [h v hv]
    ring

lemma mean_of_all_eq (x : List ℚ) (hne : x ≠ []) (a : ℚ)
    (h : ∀ v ∈ x, v = a) : mean x = a := by
  have hsum : x.sum = x.length • a := List.sum_eq_card_nsmul x a h
  have hlen : (x.length : ℚ) ≠ 0 :=
    Nat.cast_ne_zero.mpr (List.length_pos.mpr hne).ne'
  rw [mean, hsum, nsmul_eq_mul]
  exact mul_div_cancel_left₀ a hlen

lemma all_eq_mean_iff (x : List ℚ) (hne : x ≠ []) :
    (∀ v ∈ x, v = mean x) ↔ ∀ v ∈ x, ∀ w ∈ x, v = w := by
  constructor
  · intro h v hv w hw
    rw [h v hv, h w hw]
  · intro h v hv
    have : ∀ w ∈ x, w = v := fun w hw => h w hw v hv
    rw [mean_of_all_eq x hne v this]

lemma applyOp_len (s : SimState) (o : Op)
    (h : s.var_n.length = s.var_n1.length) :
    (applyOp s o).var_n.length = (applyOp s o).var_n1.length := by
  cases o with
  | toggle => simpa [applyOp, toggle_run] using h
  | clear => simp [applyOp, reset]
  | iter sample =>
    by_cases hr : s.running <;> simp [applyOp, iterate, hr, h]

lemma run_len (l : List Op) (s : SimState)
    (h : s.var_n.length = s.var_n1.length) :
    (run l s).var_n.length = (run l s).var_n1.length := by
  induction l generalizing s with
  | nil => simpa [run] using h
  | cons o t ih =>
    rw [run, List.foldl_cons]
    exact ih (applyOp s o) (applyOp_len s o h)

lemma run_replicate_iter (k : ℕ) (sample : List ℚ) (s : SimState)
    (h : s.running = true) :
    (run (List.replicate k (Op.iter sample)) s).running = true ∧
    (run (List.replicate k (Op.iter sample)) s).var_n.length =
      s.var_n.length + k ∧
    (run (List.replicate k (Op.iter sample)) s).var_n1.length =
      s.var_n1.length + k := by
  induction k generalizing s with
  | zero => simp [run, h]
  | succ n ih =>
    rw [List.replicate_succ, run, List.foldl_cons]
    have hs : (applyOp s (Op.iter sample)).running = true := by
      simp [applyOp, iterate, h]
    obtain ⟨h1, h2, h3⟩ := ih (applyOp s (Op.iter sample)) hs
    have hlen1 : (applyOp s (Op.iter sample)).var_n.length =
        s.var_n.length + 1 := by
      simp [applyOp, iterate, h]
    have hlen2 : (applyOp s (Op.iter sample)).var_n1.length =
        s.var_n1.length + 1 := by
      simp [applyOp, iterate, h]
    refine ⟨h1, ?_, ?_⟩
    · rw [run] at h2; rw [h2, hlen1]; omega
    · rw [run] at h3; rw [h3, hlen2]; omega

lemma population_explicit :
    population =
      [1, 2, 3, 4, 5, 6, 7, 8, 9, 10,
       11, 12, 13, 14, 15, 16, 17, 18, 19, 20] := by
  norm_num [population, List.range_succ]

/- ### Claims -/

/-- C1: for every sample of size n ≥ 1, `variance_n` is the mean of the
squared deviations from the sample mean (sum of squared deviations divided
by n), with the degenerate one-element sample yielding 0; for every sample
of size n ≥ 2, `variance_n1` is the sum of squared deviations divided by
n − 1; in particular `variance_n [1, 2, 3] = 2/3` and
`variance_n1 [1, 2, 3] = 1`. -/
theorem claim_variance_formulas (x : List ℚ) :
    (1 ≤ x.length → variance_n x = (sqDev x).sum / (x.length : ℚ)) ∧
    (x.length = 1 → variance_n x = 0) ∧
    (2 ≤ x.length →
      variance_n1 x = some ((sqDev x).sum / ((x.length : ℚ) - 1))) ∧
    variance_n [1, 2, 3] = 2 / 3 ∧ variance_n1 [1, 2, 3] = some 1 := by
  refine ⟨fun _ => variance_n_eq x, ?_, ?_, ?_, ?_⟩
  · intro h1
    match x, h1 with
    | [a], _ => norm_num [variance_n, mean, sqDev]
  · intro h2
    exact variance_n1_eq_some x (by omega)
  · norm_num [variance_n, mean, sqDev]
  · norm_num [variance_n1, variance_n1Val, mean, sqDev]

/-- Witness for C1 at the one-element sample [5] and the sample [1, 2, 3]. -/
theorem claim_variance_formulas_witness :
    variance_n [(5 : ℚ)] = 0 ∧
    variance_n1 [1, 2, 3] =
      some ((sqDev [1, 2, 3]).sum / ((([1, 2, 3] : List ℚ).length : ℚ) - 1)) :=
  ⟨(claim_variance_formulas [(5 : ℚ)]).2.1 (by decide),
   (claim_variance_formulas [1, 2, 3]).2.2.1 (by decide)⟩

/-- C2: for every sample of size n ≥ 2, the divide-by-n estimate is at most
the divide-by-(n−1) estimate, and the two are equal exactly when all sample
values are identical. -/
theorem claim_biased_le_unbiased (x : List ℚ) (h : 2 ≤ x.length) :
    variance_n1 x = some (variance_n1Val x) ∧
    variance_n x ≤ variance_n1Val x ∧
    (variance_n x = variance_n1Val x ↔ ∀ v ∈ x, ∀ w ∈ x, v = w) := by
  have hne : x ≠ [] := by
    intro he
    rw [he] at h
    simp at h
  have hn2 : (2 : ℚ) ≤ (x.length : ℚ) := by exact_mod_cast h
  have hn0 : (0 : ℚ) < (x.length : ℚ) := by linarith
  have hn1 : (0 : ℚ) < (x.length : ℚ) - 1 := by linarith
  have hS := sqDev_sum_nonneg x
  have hv1 : variance_n1Val x = (sqDev x).sum / ((x.length : ℚ) - 1) := rfl
  refine ⟨variance_n1_eq_some x (by omega), ?_, ?_⟩
  · rw [variance_n_eq, hv1, div_le_div_iff₀ hn0 hn1]
    nlinarith
  · rw [variance_n_eq, hv1, ← all_eq_mean_iff x hne, ← sqDev_sum_zero_iff]
    constructor
    · intro heq
      rw [div_eq_div_iff hn0.ne' hn1.ne'] at heq
      nlinarith
    · intro h0
      rw [h0]
      simp

/-- Witness for C2 at the sample [1, 2, 3]. -/
theorem claim_biased_le_unbiased_witness :
    variance_n1 [1, 2, 3] = some (variance_n1Val [1, 2, 3]) ∧
    variance_n [1, 2, 3] ≤ variance_n1Val [1, 2, 3] ∧
    (variance_n [1, 2, 3] = variance_n1Val [1, 2, 3] ↔
      ∀ v ∈ ([1, 2, 3] : List ℚ), ∀ w ∈ ([1, 2, 3] : List ℚ), v = w) :=
  claim_biased_le_unbiased [1, 2, 3] (by decide)

/-- C3: `variance_n1` on a sample of exactly one element hits a division by
zero (`len(x) - 1 = 0`): the computation is undefined and yields no
numeric value, embedded as `none`, which propagates to the caller. -/
theorem claim_unbiased_undefined (x : List ℚ) (h : x.length = 1) :
    variance_n1 x = none := by
  simp [variance_n1, h]

/-- Witness for C3 at the one-element sample [5]. -/
theorem claim_unbiased_undefined_witness :
    ([(5 : ℚ)].length = 1) ∧ variance_n1 [(5 : ℚ)] = none :=
  ⟨by decide, claim_unbiased_undefined [(5 : ℚ)] (by decide)⟩

/-- C4: after any finite sequence of toggle, reset and loop-iteration
operations from the initial state the two histories have equal length; a
loop iteration in a running state appends exactly one value to each
history; and 100 iterations from a freshly started state leave both
histories at length 100. -/
theorem claim_history_lengths (l : List Op) (s : SimState)
    (sample : List ℚ) :
    (run l initState).var_n.length = (run l initState).var_n1.length ∧
    (s.running = true →
      (iterate s sample).var_n.length = s.var_n.length + 1 ∧
      (iterate s sample).var_n1.length = s.var_n1.length + 1) ∧
    (run (Op.toggle :: List.replicate 100 (Op.iter sample))
      initState).var_n.length = 100 ∧
    (run (Op.toggle :: List.replicate 100 (Op.iter sample))
      initState).var_n1.length = 100 := by
  refine ⟨run_len l initState rfl, ?_, ?_, ?_⟩
  · intro hr
    constructor <;> simp [iterate, hr]
  · rw [run, List.foldl_cons]
    have := run_replicate_iter 100 sample (applyOp initState Op.toggle) rfl
    rw [run] at this
    exact this.2.1
  · rw [run, List.foldl_cons]
    have := run_replicate_iter 100 sample (applyOp initState Op.toggle) rfl
    rw [run] at this
    exact this.2.2

/-- Witness for C4: one iteration in a concrete running state. -/
theorem claim_history_lengths_witness :
    (iterate (⟨true, [], []⟩ : SimState) [1, 2]).var_n.length =
      (⟨true, [], []⟩ : SimState).var_n.length + 1 ∧
    (iterate (⟨true, [], []⟩ : SimState) [1, 2]).var_n1.length =
      (⟨true, [], []⟩ : SimState).var_n1.length + 1 :=
  (claim_history_lengths [] (⟨true, [], []⟩ : SimState) [1, 2]).2.1 rfl

/-- C5: the reset handler, in any state, yields a state that is not
running with both histories empty. -/
theorem claim_reset (s : SimState) :
    (reset s).running = false ∧ (reset s).var_n = [] ∧
    (reset s).var_n1 = [] :=
  ⟨rfl, rfl, rfl⟩

/-- C6: every sample size the loop can draw lies in
[2, min(10, population size)], so the loop never hands an estimator a
sample of size below 2, the requested size never exceeds the population
size (so `random.sample` succeeds and no clamping failure can arise), and
`variance_n1` is defined on every sample of such a size. -/
theorem claim_loop_sample_size (k : ℕ) (h : randint_possible 2 10 k) :
    2 ≤ k ∧ k ≤ min 10 population.length ∧ sample_ok population k ∧
    ∀ s : List ℚ, s.length = k → (variance_n1 s).isSome = true := by
  obtain ⟨h2, h10⟩ := h
  have hpop : population.length = 20 := by
    rw [population_explicit]
    rfl
  refine ⟨h2, ?_, ?_, ?_⟩
  · rw [hpop]
    omega
  · rw [sample_ok, hpop]
    omega
  · intro s hs
    rw [variance_n1_eq_some s (by omega)]
    rfl

/-- Witness for C6 at the drawn size k = 3 and the sample [1, 2, 3]. -/
theorem claim_loop_sample_size_witness :
    2 ≤ 3 ∧ 3 ≤ min 10 population.length ∧ sample_ok population 3 ∧
    (variance_n1 [1, 2, 3]).isSome = true :=
  ⟨(claim_loop_sample_size 3 ⟨by omega, by omega⟩).1,
   (claim_loop_sample_size 3 ⟨by omega, by omega⟩).2.1,
   (claim_loop_sample_size 3 ⟨by omega, by omega⟩).2.2.1,
   (claim_loop_sample_size 3 ⟨by omega, by omega⟩).2.2.2 [1, 2, 3] (by decide)⟩

/-- C7: `true_variance` is the population variance of the integers 1..20
with full-population divisor N, namely 133/4 = 33.25, and it is a constant
of the run: the value the read surface reports never changes under any
sequence of state operations. -/
theorem claim_true_variance :
    true_variance = 133 / 4 ∧
    ∀ l : List Op, (get_state (run l initState)).2.2.2 = 133 / 4 := by
  have h : true_variance = 133 / 4 := by
    rw [true_variance, population_explicit]
    norm_num [variance_n, mean, sqDev]
  exact ⟨h, fun _ => h⟩

/-- C8: the Start / Pause handler flips exactly the running flag: both
histories and the reported true variance are unchanged; from the initial
state one toggle starts the run and a second toggle restores the initial
state. -/
theorem claim_toggle_frame (s : SimState) :
    (toggle_run s).running = !s.running ∧
    (toggle_run s).var_n = s.var_n ∧
    (toggle_run s).var_n1 = s.var_n1 ∧
    (get_state (toggle_run s)).2.2.2 = (get_state s).2.2.2 ∧
    (toggle_run initState).running = true ∧
    toggle_run (toggle_run initState) = initState :=
  ⟨rfl, rfl, rfl, rfl, rfl, rfl⟩

/-- C9: for every sample of size n ≥ 2, the divide-by-(n−1) estimate is
exactly n/(n−1) times the divide-by-n estimate: the two share the sum of
squared deviations from the same sample mean and differ only in divisor. -/
theorem claim_bessel_scaling (x : List ℚ) (h : 2 ≤ x.length) :
    variance_n1 x =
      some (((x.length : ℚ) / ((x.length : ℚ) - 1)) * variance_n x) := by
  have hn2 : (2 : ℚ) ≤ (x.length : ℚ) := by exact_mod_cast h
  have hn0 : (x.length : ℚ) ≠ 0 := by
    intro h0
    rw [h0] at hn2
    norm_num at hn2
  have hn1 : (x.length : ℚ) - 1 ≠ 0 := by
    intro h0
    have : (x.length : ℚ) = 1 := by linarith
    rw [this] at hn2
    norm_num at hn2
  rw [variance_n1_eq_some x (by omega), variance_n_eq]
  have hval : variance_n1Val x = (sqDev x).sum / ((x.length : ℚ) - 1) := rfl
  rw [hval]
  congr 1
  field_simp
  ring

/-- Witness for C9 at the sample [1, 2, 3]. -/
theorem claim_bessel_scaling_witness :
    variance_n1 [1, 2, 3] =
      some (((([1, 2, 3] : List ℚ).length : ℚ) /
        ((([1, 2, 3] : List ℚ).length : ℚ) - 1)) * variance_n [1, 2, 3]) :=
  claim_bessel_scaling [1, 2, 3] (by decide)

/-- C10: `variance_n` of a non-empty sample is nonnegative, and
`variance_n1` of a sample of size n ≥ 2 returns a nonnegative value. -/
theorem claim_nonneg (x : List ℚ) :
    (x ≠ [] → 0 ≤ variance_n x) ∧
    (2 ≤ x.length → ∃ v, variance_n1 x = some v ∧ 0 ≤ v) :=
  ⟨fun _ => variance_n_nonneg x,
   fun h => ⟨variance_n1Val x, variance_n1_eq_some x (by omega),
     variance_n1Val_nonneg x h⟩⟩

/-- Witness for C10 at the sample [1, 2, 3]. -/
theorem claim_nonneg_witness :
    0 ≤ variance_n [1, 2, 3] ∧
    ∃ v, variance_n1 [1, 2, 3] = some v ∧ 0 ≤ v :=
  ⟨(claim_nonneg [1, 2, 3]).1 (by simp),
   (claim_nonneg [1, 2, 3]).2 (by decide)⟩

end SampleVarianceSim
